import Mathlib

/-!
# MoodySpotify backend — shallow embedding and verification

A shallow embedding of the MoodySpotify backend (`src/app.py`,
`src/backend/spotify_client.py`, `src/backend/models.py`, and the duplicate
root-level `src/spotify_client.py`), together with proofs and refutations of
the specified properties.

Modelling conventions:
* `datetime` values are modelled as `Nat` seconds; `datetime.utcnow()` becomes
  an explicit `now : Nat` parameter (the source calls `utcnow()` more than once
  per request, microseconds apart; a single `now` models one request instant).
* JSON token responses are modelled as a record of optional fields: `none`
  models an absent key (the source only ever probes keys with `.get`/`in`).
* Network calls (`requests.post` / `requests.get`) are modelled by passing the
  outcome of the call as an explicit `Except` parameter: `.error ()` models the
  call raising (`raise_for_status` or a connection error), `.ok v` models a
  parsed JSON payload `v`.
* SQLAlchemy rows become records, the database becomes explicit lists of rows
  plus primary-key counters, and `db.commit()` becomes returning the updated
  database value.
* Python exceptions escaping a handler are modelled with `Except PyErr`.
-/

namespace MoodySpotify

/-- Python exceptions that can escape the handlers of `app.py`. -/
inductive PyErr where
  /-- `fastapi.HTTPException(status_code = c)`. -/
  | httpException : Nat → PyErr
  /-- `requests.HTTPError` (or a generic `Exception`) from a network helper. -/
  | httpError : PyErr
  /-- Python `KeyError` from a `dict[...]` access on a missing key. -/
  | keyError : PyErr
  /-- Python `TypeError` (e.g. iterating over `None`). -/
  | typeError : PyErr
deriving DecidableEq, Repr

/-- The JSON body returned by the Spotify token endpoint
(`exchange_code_for_token` / `refresh_access_token`), as probed by `app.py`:
`access_token`, `refresh_token` and `expires_in` keys, each possibly absent
(`none` models an absent key). -/
structure TokenJson where
  access_token : Option String
  refresh_token : Option String
  expires_in : Option Nat
deriving DecidableEq, Repr

/-- A row of the `users` table (`backend/models.py`, class `User`). -/
structure User where
  id : Nat
  spotify_user_id : String
  display_name : Option String
  access_token : Option String
  refresh_token : Option String
  token_expires : Option Nat
deriving DecidableEq, Repr

/-- A row of the `tracks` table (`backend/models.py`, class `Track`).
The JSON `audio_features` blob is modelled opaquely by `AudioFeature`. -/
structure AudioFeature where
  id : String
  blob : String
deriving DecidableEq, Repr

/-- A row of the `tracks` table (`backend/models.py`, class `Track`). -/
structure Track where
  id : Nat
  spotify_track_id : String
  name : String
  artist : String
  album : String
  audio_features : Option AudioFeature
deriving DecidableEq, Repr

/-- A row of the `user_top_tracks` table (`backend/models.py`,
class `UserTopTrack`). -/
structure UserTopTrack where
  user_id : Nat
  track_id : Nat
  rank : Nat
  retrieved_at : Nat
deriving DecidableEq, Repr

/-- The JSON body of `GET /v1/me` as probed by `auth_callback`:
`profile["id"]` and `profile.get("display_name")`. -/
structure Profile where
  id : String
  display_name : Option String
deriving DecidableEq, Repr

/-- The relational store (`dev.db`): the three tables of
`backend/models.py` plus the auto-increment counters for the integer
primary keys. -/
structure DB where
  users : List User
  tracks : List Track
  user_top_tracks : List UserTopTrack
  next_track_id : Nat
  next_user_id : Nat
deriving DecidableEq, Repr

/-- `db.query(User).filter(User.spotify_user_id == sid).first()`. -/
def find_user (db : DB) (sid : String) : Option User :=
  db.users.find? (fun u => u.spotify_user_id == sid)

/-- `db.query(Track).filter(Track.spotify_track_id == sid).first()`. -/
def find_track (db : DB) (sid : String) : Option Track :=
  db.tracks.find? (fun t => t.spotify_track_id == sid)

/-- Persisting a mutated `User` row (`db.add(db_user); db.commit()`):
the row with the same primary key is replaced. -/
def db_update_user (db : DB) (u : User) : DB :=
  { db with users := db.users.map (fun v => if v.id == u.id then u else v) }

/-! ## Token Lifecycle Manager (`app.py`, `ensure_valid_access_token`, lines 71-85) -/

/-- The refresh condition of `ensure_valid_access_token` line 73:
`db_user.token_expires is None or
 db_user.token_expires <= datetime.utcnow() + timedelta(seconds=60)`. -/
def token_invalid (now : Nat) (u : User) : Bool :=
  match u.token_expires with
  | none => true
  | some e => e ≤ now + 60

/-- The mutation performed on the `User` row by a successful refresh
(`app.py` lines 75-81): store `token_json.get("access_token")`, set the new
expiry to `utcnow() + int(token_json.get("expires_in", 3600))`, and overwrite
the refresh token only when the response contains a `refresh_token` key. -/
def apply_refresh (now : Nat) (u : User) (tj : TokenJson) : User :=
  { u with
    access_token := tj.access_token
    token_expires := some (now + tj.expires_in.getD 3600)
    refresh_token :=
      match tj.refresh_token with
      | some v => some v
      | none => u.refresh_token }

/-- `ensure_valid_access_token` (`app.py` lines 71-85).
`resp` is the outcome of `spotify_client.refresh_access_token`, which is only
consulted when the stored token is invalid; `.error ()` models
`raise_for_status` raising, in which case the exception propagates before any
row mutation. The result is the (possibly updated and persisted) `User` row,
the returned value (`db_user.access_token`) or the escaped exception, and the
number of refresh exchanges performed during the call. -/
def ensure_valid_access_token (now : Nat) (u : User) (resp : Except Unit TokenJson) :
    User × Except Unit (Option String) × Nat :=
  if token_invalid now u then
    match resp with
    | .error e => (u, .error e, 1)
    | .ok tj =>
      let u2 := apply_refresh now u tj
      (u2, .ok u2.access_token, 1)
  else (u, .ok u.access_token, 0)

/-! ## External API client (`backend/spotify_client.py` and the duplicate
root-level `spotify_client.py`)

Python string primitives used by `_normalize_track_id` are modelled
structurally on `List Char` so that they compute by kernel reduction:
`str.strip()`, single-character `str.split`, `str.startswith` and the
substring test `in`. -/

/-- Python `str.strip()` on the character list: drop whitespace from both
ends. -/
def pyStrip (cs : List Char) : List Char :=
  ((cs.dropWhile Char.isWhitespace).reverse.dropWhile Char.isWhitespace).reverse

/-- Python `str.split(sep)` for a single-character separator `c`: split into
the (always nonempty) list of chunks between occurrences of `c`, keeping
empty chunks. -/
def splitChar (c : Char) : List Char → List (List Char)
  | [] => [[]]
  | x :: xs =>
    let r := splitChar c xs
    if x == c then [] :: r
    else
      match r with
      | [] => [[x]]
      | y :: ys => (x :: y) :: ys

/-- Python substring test `pat in s`. -/
def containsSub (pat : List Char) : List Char → Bool
  | [] => pat.isEmpty
  | x :: xs => pat.isPrefixOf (x :: xs) || containsSub pat xs

/-- `_normalize_track_id` (`backend/spotify_client.py` lines 127-140).
Accepts `spotify:track:<id>`, an `open.spotify.com` link, or a raw id.
Returns `none` for a falsy (empty) input; otherwise strips surrounding
whitespace, then takes the final `:`-delimited segment for a `spotify:`
URI, the final `/`-segment with the `?...` query removed for a web link,
and the stripped string unchanged otherwise. -/
def _normalize_track_id (t : String) : Option String :=
  if t.data.isEmpty then none
  else
    let s := pyStrip t.data
    if "spotify:".data.isPrefixOf s then
      some ⟨(splitChar ':' s).getLastD []⟩
    else if containsSub "open.spotify.com".data s then
      some ⟨(splitChar '?' ((splitChar '/' s).getLastD [])).headD []⟩
    else some ⟨s⟩

/-- Identifier normalization as the specification words it ("strip surrounding
whitespace; if the string uses a URI scheme prefix, take the final
colon-delimited segment; if the string is a web link, take the final path
segment with any query string removed; otherwise pass through unchanged"),
written as a total function on strings. The scheme prefix and link host are
the ones this system consumes (`spotify:`, `open.spotify.com`). -/
def normalize_spec (t : String) : String :=
  let s := pyStrip t.data
  if "spotify:".data.isPrefixOf s then
    ⟨(splitChar ':' s).getLastD []⟩
  else if containsSub "open.spotify.com".data s then
    ⟨(splitChar '?' ((splitChar '/' s).getLastD [])).headD []⟩
  else ⟨s⟩

/-- An HTTP response from the external API, as observed by `api_get`:
its status code and its (parsed) body. -/
structure HttpResponse where
  status : Nat
  body : String
deriving DecidableEq, Repr

/-- The failure an `api_get` call can raise. -/
inductive ApiFailure where
  /-- `requests.HTTPError` carrying the response: status code and body are
  available to the caller (`backend/spotify_client.py` line 112 attaches
  `response=r`, and `raise_for_status` always attaches the response). -/
  | httpErrorWith : Nat → String → ApiFailure
  /-- A bare `Exception(msg)` carrying only a message
  (root `spotify_client.py` line 65). -/
  | plainError : String → ApiFailure
deriving DecidableEq, Repr

/-- The status code a caller can recover from a failure: present for an
`HTTPError` with an attached response, absent for a bare `Exception`. -/
def ApiFailure.statusOf : ApiFailure → Option Nat
  | .httpErrorWith s _ => some s
  | .plainError _ => none

/-- `api_get` of `backend/spotify_client.py` (lines 76-117): on a non-success
status (`not r.ok`, i.e. 400 ≤ status < 600) raise `requests.HTTPError` with
the response attached; otherwise return the parsed body. -/
def api_get_backend (r : HttpResponse) : Except ApiFailure String :=
  if 400 ≤ r.status ∧ r.status < 600 then .error (.httpErrorWith r.status r.body)
  else .ok r.body

/-- `api_get` of the duplicate root-level `spotify_client.py` (lines 59-67):
on a 401 raise a bare `Exception("Unauthorized - token may be expired")`;
otherwise `raise_for_status` (an `HTTPError` with the response attached, for
400 ≤ status < 600); otherwise return the parsed body. -/
def api_get_root (r : HttpResponse) : Except ApiFailure String :=
  if r.status == 401 then .error (.plainError "Unauthorized - token may be expired")
  else if 400 ≤ r.status ∧ r.status < 600 then .error (.httpErrorWith r.status r.body)
  else .ok r.body

/-- `get_audio_features` (`backend/spotify_client.py` lines 143-153): the
underlying `api_get` outcome is wrapped in `try/except`; on success the
response's `audio_features` list is returned, on any exception the function
returns `{"audio_features": None}` — modelled as `none` (the value the caller
reads at the `audio_features` key). -/
def get_audio_features (r : Except Unit (List (Option AudioFeature))) :
    Option (List (Option AudioFeature)) :=
  match r with
  | .ok l => some l
  | .error _ => none

/-! ## HTTP handlers (`app.py`) -/

/-- Python `", ".join(xs)`. -/
def join_comma : List String → String
  | [] => ""
  | [a] => a
  | a :: rest => a ++ ", " ++ join_comma rest

/-- Python `a or b` on optional strings (`None` and `""` are falsy). -/
def py_or_str (a b : Option String) : Option String :=
  match a with
  | some s => if s == "" then b else some s
  | none => b

/-- A top-track item of the `items` array returned by `/v1/me/top/tracks`,
as probed by `api_top_tracks`: `item["id"]`, `item["name"]`,
`[a["name"] for a in item["artists"]]`, `item["album"]["name"]`. -/
structure Item where
  id : String
  name : String
  artists : List String
  album : String
deriving DecidableEq, Repr

/-- `auth_callback` (`app.py` lines 36-68). `code`/`state` are the query
parameters (absent → `None`); `exchange` is the outcome of
`exchange_code_for_token(code)`; `profile_resp` the outcome of
`get_user_profile(access_token)`. Returns the handler's outcome (the
`spotify_user_id` of the JSON response, or the escaped exception) together
with the resulting storage state. -/
def auth_callback (code : Option String) ( _state : Option String)
    (exchange : Except Unit TokenJson) (profile_resp : Except Unit Profile)
    (now : Nat) (db : DB) : Except PyErr String × DB :=
  match code with
  | none => (.error (.httpException 400), db)
  | some _ =>
    match exchange with
    | .error _ => (.error .httpError, db)
    | .ok tj =>
      match tj.access_token with
      | none => (.error .keyError, db)
      | some access_token =>
        let refresh_token := tj.refresh_token
        let expires_at := now + tj.expires_in.getD 3600
        match profile_resp with
        | .error _ => (.error .httpError, db)
        | .ok profile =>
          match find_user db profile.id with
          | some u =>
            let u2 : User :=
              { u with
                access_token := some access_token
                refresh_token := py_or_str refresh_token u.refresh_token
                token_expires := some expires_at }
            (.ok profile.id, db_update_user db u2)
          | none =>
            let u : User :=
              ⟨db.next_user_id, profile.id, profile.display_name,
               some access_token, refresh_token, some expires_at⟩
            (.ok profile.id,
             { db with users := db.users ++ [u], next_user_id := db.next_user_id + 1 })

/-- `api_me` (`app.py` lines 88-97). Line 95 of the source reads
`access_token = ensure_valid_access_token(user)a` — the trailing `a` is a
Python syntax error (the module cannot even be imported as written); this
definition models the line without the stray character, which is the evident
intent. -/
def api_me (db : DB) (sid : String) (now : Nat)
    (refresh_resp : Except Unit TokenJson) (profile_resp : Except Unit Profile) :
    Except PyErr Profile × DB :=
  match find_user db sid with
  | none => (.error (.httpException 404), db)
  | some user =>
    match ensure_valid_access_token now user refresh_resp with
    | (_, .error _, _) => (.error .httpError, db)
    | (user2, .ok _tok, _) =>
      let db2 := db_update_user db user2
      match profile_resp with
      | .error _ => (.error .httpError, db2)
      | .ok p => (.ok p, db2)

/-- One iteration of the store loop of `api_top_tracks` (`app.py` lines
111-130): look the track up by external id; insert a fresh `Track` row (with
`audio_features=None` and the next primary key) if absent, leaving an existing
row untouched; then append a `UserTopTrack` row at rank `idx + 1`. -/
def store_one (db : DB) (uid now idx : Nat) (item : Item) : DB :=
  match find_track db item.id with
  | some t =>
    { db with user_top_tracks := db.user_top_tracks ++ [⟨uid, t.id, idx + 1, now⟩] }
  | none =>
    let t : Track :=
      ⟨db.next_track_id, item.id, item.name, join_comma item.artists, item.album, none⟩
    { db with
      tracks := db.tracks ++ [t]
      next_track_id := db.next_track_id + 1
      user_top_tracks := db.user_top_tracks ++ [⟨uid, t.id, idx + 1, now⟩] }

/-- The store loop `for idx, item in enumerate(items)` of `api_top_tracks`
(`app.py` lines 111-131), with `idx` the running `enumerate` counter. -/
def store_items (uid now : Nat) : DB → Nat → List Item → DB
  | db, _, [] => db
  | db, idx, item :: rest => store_items uid now (store_one db uid now idx item) (idx + 1) rest

/-- The per-record update of the feature loop (`app.py` lines 143-147):
`db.query(Track).filter(...).first()` followed by an `audio_features`
overwrite — only the first row matching the external id is updated. -/
def update_track_features (ts : List Track) (af : AudioFeature) : List Track :=
  match ts with
  | [] => []
  | t :: rest =>
    if t.spotify_track_id == af.id then { t with audio_features := some af } :: rest
    else t :: update_track_features rest af

/-- One iteration of the feature loop (`app.py` lines 140-147): a falsy
entry (`if not af: continue`) is skipped; otherwise the matching track's
feature blob is overwritten. -/
def apply_feature (db : DB) (af : Option AudioFeature) : DB :=
  match af with
  | none => db
  | some af => { db with tracks := update_track_features db.tracks af }

/-- The Ingestion Pipeline: `api_top_tracks` after the token step (`app.py`
lines 107-150). `items_resp` is the outcome of `get_user_top_tracks`;
`af_fetch` is the outcome of the underlying `/audio-features` request inside
`get_audio_features`. Note that when `af_fetch` raises, `get_audio_features`
returns `{"audio_features": None}` and the subsequent `for af in af_list`
iterates over `None`, raising a `TypeError`. -/
def ingestion_pipeline (db : DB) (uid now : Nat)
    (items_resp : Except Unit (List Item))
    (af_fetch : Except Unit (List (Option AudioFeature))) :
    Except PyErr (DB × Nat) :=
  match items_resp with
  | .error _ => .error .httpError
  | .ok items =>
    let db2 := store_items uid now db 0 items
    let track_ids := items.map Item.id
    if track_ids.isEmpty then .ok (db2, items.length)
    else
      match get_audio_features af_fetch with
      | none => .error .typeError
      | some af_list => .ok (af_list.foldl apply_feature db2, items.length)

/-- `api_top_tracks` (`app.py` lines 100-150): look the user up by external
id (404 if unknown), ensure a valid access token (persisting any refresh),
then run the ingestion pipeline. -/
def api_top_tracks (db : DB) (sid : String) (now : Nat)
    (refresh_resp : Except Unit TokenJson)
    (items_resp : Except Unit (List Item))
    (af_fetch : Except Unit (List (Option AudioFeature))) :
    Except PyErr (DB × Nat) :=
  match find_user db sid with
  | none => .error (.httpException 404)
  | some user =>
    match ensure_valid_access_token now user refresh_resp with
    | (_, .error _, _) => .error .httpError
    | (user2, .ok _tok, _) =>
      ingestion_pipeline (db_update_user db user2) user.id now items_resp af_fetch

/-! ## Observables of the store loop (used to state ingestion idempotence) -/

/-- The `Track` rows a run of the store loop inserts for `items` when none of
the item ids is present yet: one fresh row per item, in original order, with
primary keys `n0, n0 + 1, ...`, the item's metadata, and no feature blob. -/
def fresh_tracks (n0 : Nat) : List Item → List Track
  | [] => []
  | it :: rest =>
    ⟨n0, it.id, it.name, join_comma it.artists, it.album, none⟩ :: fresh_tracks (n0 + 1) rest

/-- The `UserTopTrack` rows a run of the store loop appends for `items`,
linking user `uid` to the tracks with primary keys `n0, n0 + 1, ...` at the
1-based ranks `idx + 1, idx + 2, ...`, timestamped `now`. -/
def fresh_entries (uid now n0 idx : Nat) : List Item → List UserTopTrack
  | [] => []
  | _ :: rest => ⟨uid, n0, idx + 1, now⟩ :: fresh_entries uid now (n0 + 1) (idx + 1) rest

/-- A `Track` row with its feature blob erased: two rows equal under
`erase_features` agree on primary key, external id and all stored metadata. -/
def erase_features (t : Track) : Track := { t with audio_features := none }

/-! ## Theorems: token lifecycle (C2, C3, C4, C10) -/

/-- C2: after any `ensure_valid_access_token` call completes or fails, the
stored access token and token expiry are jointly either both their pre-call
values or both their post-call values (set together by the refresh), and if
the refresh exchange fails the whole row — access token, refresh token and
expiry — is left exactly as it was before the call. -/
theorem token_state_consistency (now : Nat) (u : User) (resp : Except Unit TokenJson) :
    (((ensure_valid_access_token now u resp).1.access_token = u.access_token ∧
      (ensure_valid_access_token now u resp).1.token_expires = u.token_expires ∧
      (ensure_valid_access_token now u resp).1.refresh_token = u.refresh_token) ∨
     (∃ tj, resp = .ok tj ∧
       (ensure_valid_access_token now u resp).1 = apply_refresh now u tj ∧
       (ensure_valid_access_token now u resp).1.access_token = tj.access_token ∧
       (ensure_valid_access_token now u resp).1.token_expires =
         some (now + tj.expires_in.getD 3600))) ∧
    (∀ e, resp = .error e → (ensure_valid_access_token now u resp).1 = u) := by
  constructor
  · unfold ensure_valid_access_token
    by_cases h : token_invalid now u = true
    · cases resp with
      | error e => simp [h]
      | ok tj =>
        right
        refine ⟨tj, rfl, ?_⟩
        simp [h, apply_refresh]
    · left
      simp [h]
  · intro e he
    subst he
    unfold ensure_valid_access_token
    by_cases h : token_invalid now u = true <;> simp [h]

/-- C2 witness: a failing refresh exchange on an expired row leaves the whole
row untouched. -/
theorem token_state_consistency_witness :
    (ensure_valid_access_token 1000 ⟨1, "u", none, some "tok", some "rt", none⟩
        (.error ())).1 = ⟨1, "u", none, some "tok", some "rt", none⟩ :=
  (token_state_consistency 1000 ⟨1, "u", none, some "tok", some "rt", none⟩
    (.error ())).2 () rfl

/-- C3: a Token Lifecycle Manager call performs exactly one refresh exchange
if and only if the stored expiry is absent or lies within 60 seconds of the
current time; in that case a successful exchange's result is persisted in the
returned row before the call returns; otherwise zero exchanges are performed
and the stored access token is returned with the row unchanged. -/
theorem refresh_iff_invalid (now : Nat) (u : User) (resp : Except Unit TokenJson) :
    ((ensure_valid_access_token now u resp).2.2 = 1 ↔
      (u.token_expires = none ∨ ∃ e, u.token_expires = some e ∧ e ≤ now + 60)) ∧
    (∀ tj, resp = .ok tj →
      (u.token_expires = none ∨ ∃ e, u.token_expires = some e ∧ e ≤ now + 60) →
      (ensure_valid_access_token now u resp).1 = apply_refresh now u tj) ∧
    (∀ e, u.token_expires = some e → now + 60 < e →
      ensure_valid_access_token now u resp = (u, .ok u.access_token, 0)) := by
  have hinv : token_invalid now u = true ↔
      (u.token_expires = none ∨ ∃ e, u.token_expires = some e ∧ e ≤ now + 60) := by
    unfold token_invalid
    cases h : u.token_expires with
    | none => simp
    | some e => simp [h]
  refine ⟨?_, ?_, ?_⟩
  · unfold ensure_valid_access_token
    by_cases h : token_invalid now u = true
    · cases resp with
      | error e => simpa [h] using hinv.mp h
      | ok tj => simpa [h] using hinv.mp h
    · have := (not_iff_not.mpr hinv).mp h
      simp [h, this]
  · intro tj htj hcond
    have h := hinv.mpr hcond
    subst htj
    unfold ensure_valid_access_token
    simp [h]
  · intro e he hgt
    have h : token_invalid now u = false := by
      unfold token_invalid
      simp [he]
      omega
    unfold ensure_valid_access_token
    simp [h]

/-- C3 witness: an expiry 1 second in the past triggers exactly one refresh
whose result is persisted; an expiry 3600 seconds in the future triggers
none and returns the stored token unchanged. -/
theorem refresh_iff_invalid_witness :
    (ensure_valid_access_token 1000 ⟨1, "u", none, some "tok", some "rt", some 999⟩
        (.ok ⟨some "new", none, some 3600⟩)).2.2 = 1 ∧
    (ensure_valid_access_token 1000 ⟨1, "u", none, some "tok", some "rt", some 999⟩
        (.ok ⟨some "new", none, some 3600⟩)).1 =
      apply_refresh 1000 ⟨1, "u", none, some "tok", some "rt", some 999⟩
        ⟨some "new", none, some 3600⟩ ∧
    ensure_valid_access_token 1000 ⟨1, "u", none, some "tok", some "rt", some 4600⟩
        (.ok ⟨some "new", none, some 3600⟩) =
      (⟨1, "u", none, some "tok", some "rt", some 4600⟩, .ok (some "tok"), 0) := by
  refine ⟨?_, ?_, ?_⟩
  · exact (refresh_iff_invalid 1000 ⟨1, "u", none, some "tok", some "rt", some 999⟩
      (.ok ⟨some "new", none, some 3600⟩)).1.mpr (Or.inr ⟨999, rfl, by omega⟩)
  · exact (refresh_iff_invalid 1000 ⟨1, "u", none, some "tok", some "rt", some 999⟩
      (.ok ⟨some "new", none, some 3600⟩)).2.1 ⟨some "new", none, some 3600⟩ rfl
      (Or.inr ⟨999, rfl, by omega⟩)
  · exact (refresh_iff_invalid 1000 ⟨1, "u", none, some "tok", some "rt", some 4600⟩
      (.ok ⟨some "new", none, some 3600⟩)).2.2 4600 rfl (by omega)

/-- C4: a successful refresh exchange persists the response's access token and
an expiry of `now` plus the provider lifetime (3600 when `expires_in` is
omitted); the stored refresh token is overwritten exactly when the response
contains a `refresh_token` key and retained otherwise; no other field of the
row changes; and the stored (new) access token is returned. -/
theorem refresh_success_frame (now : Nat) (u : User) (tj : TokenJson)
    (hinv : token_invalid now u = true) :
    (ensure_valid_access_token now u (.ok tj)).1.access_token = tj.access_token ∧
    (ensure_valid_access_token now u (.ok tj)).1.token_expires =
      some (now + tj.expires_in.getD 3600) ∧
    (∀ v, tj.refresh_token = some v →
      (ensure_valid_access_token now u (.ok tj)).1.refresh_token = some v) ∧
    (tj.refresh_token = none →
      (ensure_valid_access_token now u (.ok tj)).1.refresh_token = u.refresh_token) ∧
    (ensure_valid_access_token now u (.ok tj)).1.id = u.id ∧
    (ensure_valid_access_token now u (.ok tj)).1.spotify_user_id = u.spotify_user_id ∧
    (ensure_valid_access_token now u (.ok tj)).1.display_name = u.display_name ∧
    (ensure_valid_access_token now u (.ok tj)).2.1 = .ok tj.access_token ∧
    (ensure_valid_access_token now u (.ok tj)).2.2 = 1 := by
  unfold ensure_valid_access_token
  refine ⟨?_, ?_, ?_, ?_, ?_, ?_, ?_, ?_, ?_⟩ <;>
    simp [hinv, apply_refresh]
  · intro v hv
    simp [hv]
  · intro hv
    simp [hv]

/-- C4 witness: refreshing an expired row with a response that carries a new
refresh token and omits `expires_in`. -/
theorem refresh_success_frame_witness :
    token_invalid 1000 ⟨1, "u", none, some "old", some "rt", some 999⟩ = true ∧
    (ensure_valid_access_token 1000 ⟨1, "u", none, some "old", some "rt", some 999⟩
        (.ok ⟨some "new", some "rt2", none⟩)).1.access_token = some "new" ∧
    (ensure_valid_access_token 1000 ⟨1, "u", none, some "old", some "rt", some 999⟩
        (.ok ⟨some "new", some "rt2", none⟩)).1.token_expires = some 4600 := by
  have h := refresh_success_frame 1000 ⟨1, "u", none, some "old", some "rt", some 999⟩
    ⟨some "new", some "rt2", none⟩ (by decide)
  exact ⟨by decide, h.1, h.2.1⟩

/-- C10 counterexample: the claim states that a successful refresh whose
response lacks an `access_token` field always yields a stored expiry of
`now + 3600`; but when the response carries `expires_in = 100` the code stores
`now + 100` (here `1100`), not `now + 3600` (here `4600`). -/
theorem refresh_missing_token_cex :
    (ensure_valid_access_token 1000 ⟨1, "u", none, some "old", some "rt", none⟩
        (.ok ⟨none, none, some 100⟩)).1.access_token = none ∧
    (ensure_valid_access_token 1000 ⟨1, "u", none, some "old", some "rt", none⟩
        (.ok ⟨none, none, some 100⟩)).1.token_expires = some 1100 ∧
    some (1100 : Nat) ≠ some (1000 + 3600) := by
  refine ⟨?_, ?_, by decide⟩ <;> rfl

/-- C10 (amended): if the refresh exchange succeeds but its response contains
no access token field, `ensure_valid_access_token` raises no error: it persists
`None` as the stored access token together with a fresh expiry of the current
time plus the provider-supplied lifetime (3600 seconds when `expires_in` is
omitted), and returns `None` to the caller. -/
theorem refresh_missing_token_behavior (now : Nat) (u : User) (tj : TokenJson)
    (hinv : token_invalid now u = true) (hnone : tj.access_token = none) :
    (ensure_valid_access_token now u (.ok tj)).1.access_token = none ∧
    (ensure_valid_access_token now u (.ok tj)).1.token_expires =
      some (now + tj.expires_in.getD 3600) ∧
    (ensure_valid_access_token now u (.ok tj)).2.1 = .ok none := by
  unfold ensure_valid_access_token
  simp [hinv, apply_refresh, hnone]

/-- C10 witness: a refresh on a row with no recorded expiry, whose response is
the empty JSON object, stores `None` with expiry `now + 3600` and returns
`None`. -/
theorem refresh_missing_token_behavior_witness :
    token_invalid 1000 ⟨1, "u", none, some "old", some "rt", none⟩ = true ∧
    (ensure_valid_access_token 1000 ⟨1, "u", none, some "old", some "rt", none⟩
        (.ok ⟨none, none, none⟩)).1.access_token = none ∧
    (ensure_valid_access_token 1000 ⟨1, "u", none, some "old", some "rt", none⟩
        (.ok ⟨none, none, none⟩)).1.token_expires = some 4600 ∧
    (ensure_valid_access_token 1000 ⟨1, "u", none, some "old", some "rt", none⟩
        (.ok ⟨none, none, none⟩)).2.1 = .ok none := by
  have h := refresh_missing_token_behavior 1000 ⟨1, "u", none, some "old", some "rt", none⟩
    ⟨none, none, none⟩ (by decide) rfl
  exact ⟨by decide, h.1, h.2.1, h.2.2⟩

/-! ## Theorems: external API client (C5, C7) -/

/-- C5 counterexample: the claim states that every input string not matching
the URI or link shapes is returned unchanged, but the empty string (falsy in
Python) is rejected with `None` rather than returned unchanged. -/
theorem normalize_empty_cex :
    _normalize_track_id "" = none ∧ (none : Option String) ≠ some "" := by
  exact ⟨rfl, by decide⟩

/-- C5 (amended): for every nonempty input string, the identifier
normalization strips surrounding whitespace and then takes the final
colon-delimited segment for a URI-scheme-prefixed string, the final path
segment with any query removed for a web link, and the stripped string
unchanged otherwise (`normalize_spec`, written from the specification's
words); the empty string alone is rejected with `None`. In particular the
three specified examples hold. -/
theorem normalize_matches_spec (t : String) (h : t ≠ "") :
    _normalize_track_id t = some (normalize_spec t) ∧
    _normalize_track_id "spotify:track:abc123" = some "abc123" ∧
    _normalize_track_id "https://open.spotify.com/track/abc123?si=xyz" = some "abc123" ∧
    _normalize_track_id "abc123" = some "abc123" := by
  refine ⟨?_, rfl, rfl, rfl⟩
  have hd : t.data.isEmpty = false := by
    cases t with
    | mk data =>
      cases data with
      | nil => exact absurd rfl h
      | cons x xs => rfl
  simp only [_normalize_track_id, normalize_spec, hd, Bool.false_eq_true, if_false]
  split_ifs <;> rfl

/-- C5 witness: the amended theorem applied to the raw id `"abc123"`. -/
theorem normalize_matches_spec_witness :
    "abc123" ≠ "" ∧ _normalize_track_id "abc123" = some (normalize_spec "abc123") := by
  exact ⟨by decide, (normalize_matches_spec "abc123" (by decide)).1⟩

/-- C7 counterexample: the claim states that every non-success status from the
external API client is surfaced as a typed failure carrying the status code
and response body; but the duplicate root-level client's `api_get` raises a
bare message-only `Exception` on a 401, from which neither the status code nor
the body is recoverable. -/
theorem root_client_401_untyped_cex :
    api_get_root ⟨401, "expired"⟩ =
      .error (.plainError "Unauthorized - token may be expired") ∧
    (ApiFailure.plainError "Unauthorized - token may be expired").statusOf = none ∧
    api_get_root ⟨401, "expired"⟩ ≠ .error (.httpErrorWith 401 "expired") := by
  refine ⟨rfl, rfl, ?_⟩
  intro hcontra
  simp [api_get_root] at hcontra

/-- C7 (amended): in the backend client, every non-success HTTP status
(400-599) results in a typed failure carrying the status code and the response
body, so a 401 is distinguishable from every other failure by its carried
status; the duplicate root-level client raises a status-carrying typed failure
for every non-success status except 401, where it instead raises a bare
message-only exception (distinguishable by shape, but carrying neither status
nor body). -/
theorem api_get_error_typed (r : HttpResponse) (h1 : 400 ≤ r.status) (h2 : r.status < 600) :
    api_get_backend r = .error (.httpErrorWith r.status r.body) ∧
    (ApiFailure.httpErrorWith r.status r.body).statusOf = some r.status ∧
    (r.status ≠ 401 → api_get_root r = .error (.httpErrorWith r.status r.body)) ∧
    (r.status = 401 →
      api_get_root r = .error (.plainError "Unauthorized - token may be expired")) := by
  refine ⟨?_, rfl, ?_, ?_⟩
  · simp [api_get_backend, h1, h2]
  · intro hne
    simp [api_get_root, h1, h2, hne]
  · intro heq
    simp [api_get_root, heq]

/-- C7 witness: a 404 with body `"nf"` through the backend client. -/
theorem api_get_error_typed_witness :
    400 ≤ (404 : Nat) ∧ (404 : Nat) < 600 ∧
    api_get_backend ⟨404, "nf"⟩ = .error (.httpErrorWith 404 "nf") := by
  exact ⟨by decide, by decide, (api_get_error_typed ⟨404, "nf"⟩ (by decide) (by decide)).1⟩

/-! ## Theorems: HTTP handlers (C8, C9, C1) -/

/-- C8: a callback request with no `code` parameter fails with a 400 response,
and the storage state — in particular the `users` table — is returned exactly
as it was: no `UserAccount` row is created or modified. -/
theorem callback_missing_code_rejected (st : Option String)
    (ex : Except Unit TokenJson) (pr : Except Unit Profile) (now : Nat) (db : DB) :
    auth_callback none st ex pr now db = (.error (.httpException 400), db) := rfl

/-- C9 (intent of the slipped source): with the stray `a` of `app.py` line 95
removed, the profile endpoint fails with a 404 for an unknown external user
id, and for a stored user returns the profile fetched from the external API
after ensuring token validity (persisting any refresh into storage). The
source as written is a Python syntax error at that line, so the module cannot
load at all. -/
theorem api_me_intended_behavior (db : DB) (sid : String) (now : Nat)
    (tj : TokenJson) (p : Profile) :
    (find_user db sid = none →
      api_me db sid now (.ok tj) (.ok p) = (.error (.httpException 404), db)) ∧
    (∀ u, find_user db sid = some u →
      api_me db sid now (.ok tj) (.ok p) =
        (.ok p, db_update_user db (ensure_valid_access_token now u (.ok tj)).1)) := by
  constructor
  · intro h
    simp [api_me, h]
  · intro u hu
    by_cases hv : token_invalid now u = true
    · simp [api_me, hu, ensure_valid_access_token, hv]
    · simp [api_me, hu, ensure_valid_access_token, hv]

/-- C9 witness: a stored user with a still-valid token, and an unknown user. -/
theorem api_me_intended_behavior_witness :
    find_user ⟨[⟨1, "u1", none, some "tok", some "rt", some 5000⟩], [], [], 0, 2⟩ "u1" =
      some ⟨1, "u1", none, some "tok", some "rt", some 5000⟩ ∧
    api_me ⟨[⟨1, "u1", none, some "tok", some "rt", some 5000⟩], [], [], 0, 2⟩ "u1" 1000
        (.ok ⟨some "new", none, none⟩) (.ok ⟨"u1", some "Name"⟩) =
      (.ok ⟨"u1", some "Name"⟩,
       db_update_user ⟨[⟨1, "u1", none, some "tok", some "rt", some 5000⟩], [], [], 0, 2⟩
         (ensure_valid_access_token 1000 ⟨1, "u1", none, some "tok", some "rt", some 5000⟩
           (.ok ⟨some "new", none, none⟩)).1) ∧
    find_user ⟨[⟨1, "u1", none, some "tok", some "rt", some 5000⟩], [], [], 0, 2⟩ "zz" = none ∧
    api_me ⟨[⟨1, "u1", none, some "tok", some "rt", some 5000⟩], [], [], 0, 2⟩ "zz" 1000
        (.ok ⟨some "new", none, none⟩) (.ok ⟨"u1", some "Name"⟩) =
      (.error (.httpException 404),
       ⟨[⟨1, "u1", none, some "tok", some "rt", some 5000⟩], [], [], 0, 2⟩) := by
  refine ⟨rfl, ?_, rfl, ?_⟩
  · exact (api_me_intended_behavior
      ⟨[⟨1, "u1", none, some "tok", some "rt", some 5000⟩], [], [], 0, 2⟩ "u1" 1000
      ⟨some "new", none, none⟩ ⟨"u1", some "Name"⟩).2
      ⟨1, "u1", none, some "tok", some "rt", some 5000⟩ rfl
  · exact (api_me_intended_behavior
      ⟨[⟨1, "u1", none, some "tok", some "rt", some 5000⟩], [], [], 0, 2⟩ "zz" 1000
      ⟨some "new", none, none⟩ ⟨"u1", some "Name"⟩).1 rfl

/-- C1 (the code at the claimed scenario): when the auxiliary audio-feature
request raises, `get_audio_features` returns `{"audio_features": None}`
(modelled `none`), and the pipeline then iterates over that `None`, so a
`TypeError` escapes to the caller of the top-tracks operation instead of the
claimed `{fetched: N}` result — here for a stored user with a valid token and
a one-item fetched list. -/
theorem top_tracks_feature_failure_raises :
    get_audio_features (Except.error ()) = none ∧
    api_top_tracks ⟨[⟨1, "u1", none, some "tok", some "rt", some 100000⟩], [], [], 0, 2⟩
        "u1" 100 (.error ()) (.ok [⟨"t1", "Song", ["Artist"], "Album"⟩]) (.error ()) =
      .error .typeError := by
  exact ⟨rfl, rfl⟩

/-! ## Lemmas on the store loop and the feature loop -/

theorem find?_append_of_none {α : Type} (p : α → Bool) (l1 l2 : List α)
    (h : l1.find? p = none) : (l1 ++ l2).find? p = l2.find? p := by
  induction l1 with
  | nil => rfl
  | cons a rest ih =>
    rw [List.find?_cons] at h
    cases hp : p a with
    | true => rw [hp] at h; simp at h
    | false =>
      rw [hp] at h
      simp only [List.cons_append, List.find?_cons, hp]
      exact ih h

/-- A run of the store loop over items none of whose ids is stored yet inserts
exactly the fresh rows, in order, and appends exactly the fresh entries. -/
theorem store_items_fresh (uid now : Nat) (items : List Item) :
    ∀ (db : DB) (idx : Nat),
      (∀ it ∈ items, find_track db it.id = none) →
      (items.map Item.id).Nodup →
      store_items uid now db idx items =
        { db with
          tracks := db.tracks ++ fresh_tracks db.next_track_id items
          next_track_id := db.next_track_id + items.length
          user_top_tracks :=
            db.user_top_tracks ++ fresh_entries uid now db.next_track_id idx items } := by
  induction items with
  | nil =>
    intro db idx _ _
    cases db
    simp [store_items, fresh_tracks, fresh_entries]
  | cons it rest ih =>
    intro db idx hnew hnd
    have h0 : find_track db it.id = none := hnew it (List.mem_cons_self it rest)
    have hnd' : (rest.map Item.id).Nodup := (List.nodup_cons.mp (by simpa using hnd)).2
    have hnotin : it.id ∉ rest.map Item.id := (List.nodup_cons.mp (by simpa using hnd)).1
    have hso : store_one db uid now idx it =
        { db with
          tracks := db.tracks ++
            [⟨db.next_track_id, it.id, it.name, join_comma it.artists, it.album, none⟩]
          next_track_id := db.next_track_id + 1
          user_top_tracks := db.user_top_tracks ++ [⟨uid, db.next_track_id, idx + 1, now⟩] } := by
      simp [store_one, h0]
    have hnew' : ∀ it' ∈ rest,
        find_track (store_one db uid now idx it) it'.id = none := by
      intro it' hmem
      rw [hso]
      show ((db.tracks ++ _).find? _) = none
      rw [find?_append_of_none _ _ _ (hnew it' (List.mem_cons_of_mem it hmem))]
      have hne : (it.id == it'.id) = false := by
        rw [beq_eq_false_iff_ne]
        intro hcontra
        exact hnotin (hcontra ▸ List.mem_map_of_mem Item.id hmem)
      simp [List.find?, hne]
    rw [store_items, ih _ (idx + 1) hnew' hnd', hso]
    cases db
    simp [fresh_tracks, fresh_entries, List.append_assoc]
    omega

/-- A run of the store loop over items whose ids are all stored already, at
the consecutive primary keys `n0, n0 + 1, ...`, inserts nothing and appends
exactly the fresh entries linking to those keys. -/
theorem store_items_found (uid now : Nat) (items : List Item) :
    ∀ (db : DB) (idx n0 : Nat),
      (∀ k (hk : k < items.length),
        (find_track db (items.get ⟨k, hk⟩).id).map Track.id = some (n0 + k)) →
      store_items uid now db idx items =
        { db with user_top_tracks :=
            db.user_top_tracks ++ fresh_entries uid now n0 idx items } := by
  induction items with
  | nil =>
    intro db idx n0 _
    cases db
    simp [store_items, fresh_entries]
  | cons it rest ih =>
    intro db idx n0 hfind
    have h0 : (find_track db it.id).map Track.id = some (n0 + 0) := hfind 0 (by simp)
    rw [Nat.add_zero] at h0
    obtain ⟨t, ht, htid⟩ : ∃ t, find_track db it.id = some t ∧ t.id = n0 := by
      cases hft : find_track db it.id with
      | none => rw [hft] at h0; simp at h0
      | some t =>
        rw [hft] at h0
        simp at h0
        exact ⟨t, rfl, by simpa using h0⟩
    have hso : store_one db uid now idx it =
        { db with user_top_tracks := db.user_top_tracks ++ [⟨uid, n0, idx + 1, now⟩] } := by
      simp [store_one, ht, htid]
    have hfind' : ∀ k (hk : k < rest.length),
        (find_track (store_one db uid now idx it) (rest.get ⟨k, hk⟩).id).map Track.id =
          some (n0 + 1 + k) := by
      intro k hk
      have hk' : k + 1 < (it :: rest).length := by simpa using Nat.succ_lt_succ hk
      have hstep : (find_track db (rest.get ⟨k, hk⟩).id).map Track.id =
          some (n0 + (k + 1)) := hfind (k + 1) hk'
      have harith : n0 + (k + 1) = n0 + 1 + k := by omega
      rw [harith] at hstep
      rw [hso]
      exact hstep
    rw [store_items, ih _ (idx + 1) (n0 + 1) hfind', hso]
    cases db
    simp [fresh_entries, List.append_assoc]

/-- Overwriting a feature blob changes no stored metadata. -/
theorem update_track_features_key (ts : List Track) (af : AudioFeature) :
    (update_track_features ts af).map erase_features = ts.map erase_features := by
  induction ts with
  | nil => rfl
  | cons t rest ih =>
    by_cases h : (t.spotify_track_id == af.id) = true
    · simp [update_track_features, h, erase_features]
    · simp only [update_track_features]
      rw [if_neg h]
      simp [ih]

/-- The feature loop touches only the feature blobs of `tracks`: users,
ranking entries, both key counters, and every stored metadata field are
preserved. -/
theorem apply_feature_frame (db : DB) (af : Option AudioFeature) :
    (apply_feature db af).users = db.users ∧
    (apply_feature db af).user_top_tracks = db.user_top_tracks ∧
    (apply_feature db af).next_track_id = db.next_track_id ∧
    (apply_feature db af).next_user_id = db.next_user_id ∧
    (apply_feature db af).tracks.map erase_features = db.tracks.map erase_features := by
  cases af with
  | none => exact ⟨rfl, rfl, rfl, rfl, rfl⟩
  | some af => exact ⟨rfl, rfl, rfl, rfl, update_track_features_key db.tracks af⟩

/-- The whole feature stage (`foldl` over the returned feature records)
preserves users, ranking entries, counters and stored metadata. -/
theorem foldl_apply_feature_frame (afs : List (Option AudioFeature)) :
    ∀ db : DB,
      (afs.foldl apply_feature db).users = db.users ∧
      (afs.foldl apply_feature db).user_top_tracks = db.user_top_tracks ∧
      (afs.foldl apply_feature db).next_track_id = db.next_track_id ∧
      (afs.foldl apply_feature db).next_user_id = db.next_user_id ∧
      (afs.foldl apply_feature db).tracks.map erase_features =
        db.tracks.map erase_features := by
  induction afs with
  | nil => intro db; exact ⟨rfl, rfl, rfl, rfl, rfl⟩
  | cons af rest ih =>
    intro db
    have h1 := apply_feature_frame db af
    have h2 := ih (apply_feature db af)
    exact ⟨h2.1.trans h1.1, h2.2.1.trans h1.2.1, h2.2.2.1.trans h1.2.2.1,
      h2.2.2.2.1.trans h1.2.2.2.1, h2.2.2.2.2.trans h1.2.2.2.2⟩

/-- Looking a track up by external id depends only on the metadata
(`erase_features`) image of the table. -/
theorem find?_track_of_key_eq (s : String) :
    ∀ (l1 l2 : List Track), l1.map erase_features = l2.map erase_features →
      (l1.find? (fun t => t.spotify_track_id == s)).map erase_features =
        (l2.find? (fun t => t.spotify_track_id == s)).map erase_features := by
  intro l1
  induction l1 with
  | nil =>
    intro l2 h
    cases l2 with
    | nil => rfl
    | cons t2 rest2 => simp at h
  | cons t rest ih =>
    intro l2 h
    cases l2 with
    | nil => simp at h
    | cons t2 rest2 =>
      simp only [List.map_cons, List.cons.injEq] at h
      have hsid : t.spotify_track_id = t2.spotify_track_id := by
        have := congrArg Track.spotify_track_id h.1
        simpa [erase_features] using this
      by_cases hp : (t.spotify_track_id == s) = true
      · have hp2 : (t2.spotify_track_id == s) = true := by rw [← hsid]; exact hp
        simp [List.find?, hp, hp2, h.1]
      · have hp' : (t.spotify_track_id == s) = false := by
          cases hb : (t.spotify_track_id == s) with
          | true => exact absurd hb hp
          | false => rfl
        have hp2 : (t2.spotify_track_id == s) = false := by rw [← hsid]; exact hp'
        simp only [List.find?, hp', hp2]
        exact ih rest2 h.2

/-- Counting tracks by external id depends only on the metadata image of the
table. -/
theorem filter_track_length_of_key_eq (s : String) :
    ∀ (l1 l2 : List Track), l1.map erase_features = l2.map erase_features →
      (l1.filter (fun t => t.spotify_track_id == s)).length =
        (l2.filter (fun t => t.spotify_track_id == s)).length := by
  intro l1
  induction l1 with
  | nil =>
    intro l2 h
    cases l2 with
    | nil => rfl
    | cons t2 rest2 => simp at h
  | cons t rest ih =>
    intro l2 h
    cases l2 with
    | nil => simp at h
    | cons t2 rest2 =>
      simp only [List.map_cons, List.cons.injEq] at h
      have hsid : t.spotify_track_id = t2.spotify_track_id := by
        have := congrArg Track.spotify_track_id h.1
        simpa [erase_features] using this
      by_cases hp : (t.spotify_track_id == s) = true
      · have hp2 : (t2.spotify_track_id == s) = true := by rw [← hsid]; exact hp
        simp only [List.filter, hp, hp2, List.length_cons]
        exact congrArg Nat.succ (ih rest2 h.2)
      · have hp' : (t.spotify_track_id == s) = false := by
          cases hb : (t.spotify_track_id == s) with
          | true => exact absurd hb hp
          | false => rfl
        have hp2 : (t2.spotify_track_id == s) = false := by rw [← hsid]; exact hp'
        simp only [List.filter, hp', hp2]
        exact ih rest2 h.2

theorem map_id_of_map_erase {o : Option Track} {T : Track}
    (h : o.map erase_features = some T) : o.map Track.id = some T.id := by
  cases o with
  | none => simp at h
  | some t =>
    simp at h ⊢
    rw [← h]
    rfl

/-- Looking up the `k`-th item's id among the freshly inserted rows finds the
`k`-th fresh row. -/
theorem fresh_tracks_find (items : List Item) :
    ∀ (n0 k : Nat) (hk : k < items.length),
      (items.map Item.id).Nodup →
      (fresh_tracks n0 items).find?
          (fun t => t.spotify_track_id == (items.get ⟨k, hk⟩).id) =
        some ⟨n0 + k, (items.get ⟨k, hk⟩).id, (items.get ⟨k, hk⟩).name,
              join_comma (items.get ⟨k, hk⟩).artists, (items.get ⟨k, hk⟩).album, none⟩ := by
  induction items with
  | nil => intro n0 k hk _; simp at hk
  | cons it rest ih =>
    intro n0 k hk hnd
    have hnotin : it.id ∉ rest.map Item.id := (List.nodup_cons.mp (by simpa using hnd)).1
    have hnd' : (rest.map Item.id).Nodup := (List.nodup_cons.mp (by simpa using hnd)).2
    cases k with
    | zero =>
      show (fresh_tracks n0 (it :: rest)).find? (fun t => t.spotify_track_id == it.id) =
        some ⟨n0 + 0, it.id, it.name, join_comma it.artists, it.album, none⟩
      simp [fresh_tracks, List.find?]
    | succ k =>
      have hk' : k < rest.length := by simpa using Nat.lt_of_succ_lt_succ hk
      have hmem : (rest.get ⟨k, hk'⟩).id ∈ rest.map Item.id :=
        List.mem_map_of_mem Item.id (rest.get_mem k hk')
      have hne : (it.id == (rest.get ⟨k, hk'⟩).id) = false := by
        rw [beq_eq_false_iff_ne]
        intro hcontra
        exact hnotin (hcontra ▸ hmem)
      show (fresh_tracks n0 (it :: rest)).find?
          (fun t => t.spotify_track_id == (rest.get ⟨k, hk'⟩).id) = _
      simp only [fresh_tracks, List.find?, hne]
      have := ih (n0 + 1) k hk' hnd'
      rw [this]
      have harith : n0 + 1 + k = n0 + (k + 1) := by omega
      rw [harith]
      rfl

/-- No fresh row carries an id that is not among the items' ids. -/
theorem fresh_tracks_filter_not_mem (items : List Item) :
    ∀ (n0 : Nat) (s : String), s ∉ items.map Item.id →
      (fresh_tracks n0 items).filter (fun t => t.spotify_track_id == s) = [] := by
  induction items with
  | nil => intro n0 s _; rfl
  | cons it rest ih =>
    intro n0 s hs
    have hne : (it.id == s) = false := by
      rw [beq_eq_false_iff_ne]
      intro hcontra
      exact hs (hcontra ▸ List.mem_map_of_mem Item.id (List.mem_cons_self it rest))
    have hs' : s ∉ rest.map Item.id := by
      intro hcontra
      exact hs (by simp [hcontra])
    simp only [fresh_tracks, List.filter, hne]
    exact ih (n0 + 1) s hs'

/-- When the ids are distinct, exactly one fresh row carries the `k`-th
item's id. -/
theorem fresh_tracks_count (items : List Item) :
    ∀ (n0 k : Nat) (hk : k < items.length),
      (items.map Item.id).Nodup →
      ((fresh_tracks n0 items).filter
          (fun t => t.spotify_track_id == (items.get ⟨k, hk⟩).id)).length = 1 := by
  induction items with
  | nil => intro n0 k hk _; simp at hk
  | cons it rest ih =>
    intro n0 k hk hnd
    have hnotin : it.id ∉ rest.map Item.id := (List.nodup_cons.mp (by simpa using hnd)).1
    have hnd' : (rest.map Item.id).Nodup := (List.nodup_cons.mp (by simpa using hnd)).2
    cases k with
    | zero =>
      show ((fresh_tracks n0 (it :: rest)).filter
          (fun t => t.spotify_track_id == it.id)).length = 1
      simp only [fresh_tracks, List.filter, beq_self_eq_true]
      rw [fresh_tracks_filter_not_mem rest (n0 + 1) it.id hnotin]
      rfl
    | succ k =>
      have hk' : k < rest.length := by simpa using Nat.lt_of_succ_lt_succ hk
      have hmem : (rest.get ⟨k, hk'⟩).id ∈ rest.map Item.id :=
        List.mem_map_of_mem Item.id (rest.get_mem k hk')
      have hne : (it.id == (rest.get ⟨k, hk'⟩).id) = false := by
        rw [beq_eq_false_iff_ne]
        intro hcontra
        exact hnotin (hcontra ▸ hmem)
      show ((fresh_tracks n0 (it :: rest)).filter
          (fun t => t.spotify_track_id == (rest.get ⟨k, hk'⟩).id)).length = 1
      simp only [fresh_tracks, List.filter, hne]
      exact ih (n0 + 1) k hk' hnd'

/-- The appended entries of one run link only to keys `≥ n0`. -/
theorem fresh_entries_filter_low (uid now : Nat) (items : List Item) :
    ∀ (n0 idx m : Nat), m < n0 →
      (fresh_entries uid now n0 idx items).filter
        (fun e => e.user_id == uid && e.track_id == m) = [] := by
  induction items with
  | nil => intro n0 idx m _; rfl
  | cons it rest ih =>
    intro n0 idx m hm
    have hne : (n0 == m) = false := by
      rw [beq_eq_false_iff_ne]
      omega
    simp only [fresh_entries, List.filter, hne, Bool.and_false]
    exact ih (n0 + 1) (idx + 1) m (by omega)

/-- Exactly one entry of one run links user `uid` to the key `n0 + k`. -/
theorem fresh_entries_count (uid now : Nat) (items : List Item) :
    ∀ (n0 idx k : Nat), k < items.length →
      ((fresh_entries uid now n0 idx items).filter
          (fun e => e.user_id == uid && e.track_id == n0 + k)).length = 1 := by
  induction items with
  | nil => intro n0 idx k hk; simp at hk
  | cons it rest ih =>
    intro n0 idx k hk
    cases k with
    | zero =>
      simp only [fresh_entries, List.filter, beq_self_eq_true, Nat.add_zero,
        Bool.and_self]
      rw [fresh_entries_filter_low uid now rest (n0 + 1) (idx + 1) n0 (by omega)]
      rfl
    | succ k =>
      have hne : (n0 == n0 + (k + 1)) = false := by
        rw [beq_eq_false_iff_ne]
        omega
      simp only [fresh_entries, List.filter, hne, Bool.and_false]
      have := ih (n0 + 1) (idx + 1) k (by simpa using Nat.lt_of_succ_lt_succ hk)
      have harith : n0 + 1 + k = n0 + (k + 1) := by omega
      rw [harith] at this
      exact this

/-- With the user found and the stored token still valid, `api_top_tracks`
runs the ingestion pipeline on the persisted (unchanged) user. -/
theorem api_top_tracks_valid_run (db : DB) (u : User) (now : Nat)
    (r : Except Unit TokenJson) (items_resp : Except Unit (List Item))
    (af_fetch : Except Unit (List (Option AudioFeature)))
    (hfindu : find_user db u.spotify_user_id = some u)
    (hvalid : token_invalid now u = false) :
    api_top_tracks db u.spotify_user_id now r items_resp af_fetch =
      ingestion_pipeline (db_update_user db u) u.id now items_resp af_fetch := by
  simp [api_top_tracks, hfindu, ensure_valid_access_token, hvalid]

/-- With the item fetch and the feature fetch both succeeding, the pipeline
is the store loop followed by the feature loop. -/
theorem ingestion_pipeline_ok (db : DB) (uid now : Nat) (items : List Item)
    (afs : List (Option AudioFeature)) (hne : items ≠ []) :
    ingestion_pipeline db uid now (.ok items) (.ok afs) =
      .ok (afs.foldl apply_feature (store_items uid now db 0 items), items.length) := by
  have hemp : (items.map Item.id).isEmpty = false := by
    cases items with
    | nil => exact absurd rfl hne
    | cons a l => rfl
  simp [ingestion_pipeline, get_audio_features, hemp]

/-- Persisting the unchanged row of the only user leaves the storage
componentwise unchanged. -/
theorem db_update_user_self (db : DB) (u : User) (h : db.users = [u]) :
    (db_update_user db u).users = [u] ∧
    (db_update_user db u).tracks = db.tracks ∧
    (db_update_user db u).user_top_tracks = db.user_top_tracks ∧
    (db_update_user db u).next_track_id = db.next_track_id ∧
    (db_update_user db u).next_user_id = db.next_user_id := by
  refine ⟨?_, rfl, rfl, rfl, rfl⟩
  show db.users.map _ = [u]
  rw [h]
  simp

theorem find_user_single (db : DB) (u : User) (h : db.users = [u]) :
    find_user db u.spotify_user_id = some u := by
  unfold find_user
  rw [h]
  simp [List.find?]

/-! ## Theorem: ingestion idempotence (C6) -/

/-- C6: for a stored user with a valid token, running the ingestion pipeline
twice with an unchanged external item list (of pairwise distinct ids) succeeds
both times with `{fetched: N}`; afterwards the ranking table holds exactly the
two append-only batches of entries — each batch in original rank order with
1-based ranks — so exactly two `RankingEntry` rows per item; the catalog holds
exactly one `CatalogItem` row per distinct external item id; and each of those
rows still carries the metadata of its first insertion (the repeat sighting at
the upsert stage left it untouched, and the feature stage can have changed
only the feature blob, erased by `erase_features`). -/
theorem ingestion_twice (u : User) (items : List Item) (db0 : DB)
    (now1 now2 : Nat) (r1 r2 : Except Unit TokenJson)
    (afs1 afs2 : List (Option AudioFeature))
    (husers : db0.users = [u])
    (htracks : db0.tracks = [])
    (hutts : db0.user_top_tracks = [])
    (hnd : (items.map Item.id).Nodup)
    (hvalid1 : token_invalid now1 u = false)
    (hvalid2 : token_invalid now2 u = false) :
    ∃ db1 db2 : DB,
      api_top_tracks db0 u.spotify_user_id now1 r1 (.ok items) (.ok afs1) =
        .ok (db1, items.length) ∧
      api_top_tracks db1 u.spotify_user_id now2 r2 (.ok items) (.ok afs2) =
        .ok (db2, items.length) ∧
      db2.user_top_tracks =
        fresh_entries u.id now1 db0.next_track_id 0 items ++
          fresh_entries u.id now2 db0.next_track_id 0 items ∧
      db2.tracks.map erase_features =
        (fresh_tracks db0.next_track_id items).map erase_features ∧
      ∀ k (hk : k < items.length),
        (db2.tracks.filter
            (fun t => t.spotify_track_id == (items.get ⟨k, hk⟩).id)).length = 1 ∧
        (db2.user_top_tracks.filter
            (fun e => e.user_id == u.id && e.track_id == db0.next_track_id + k)).length = 2 ∧
        (find_track db2 (items.get ⟨k, hk⟩).id).map erase_features =
          some ⟨db0.next_track_id + k, (items.get ⟨k, hk⟩).id, (items.get ⟨k, hk⟩).name,
                join_comma (items.get ⟨k, hk⟩).artists, (items.get ⟨k, hk⟩).album, none⟩ := by
  have hf0 : find_user db0 u.spotify_user_id = some u := find_user_single db0 u husers
  obtain ⟨huU, htU, huttU, hnU, hmU⟩ := db_update_user_self db0 u husers
  by_cases hne : items = []
  · subst hne
    have hrun1 : api_top_tracks db0 u.spotify_user_id now1 r1 (.ok []) (.ok afs1) =
        .ok (db_update_user db0 u, 0) := by
      rw [api_top_tracks_valid_run db0 u now1 r1 _ _ hf0 hvalid1]
      simp [ingestion_pipeline, store_items]
    have hf1 : find_user (db_update_user db0 u) u.spotify_user_id = some u :=
      find_user_single _ u huU
    obtain ⟨hu2, ht2, hutt2, hn2, hm2⟩ := db_update_user_self _ u huU
    have hrun2 : api_top_tracks (db_update_user db0 u) u.spotify_user_id now2 r2
        (.ok []) (.ok afs2) = .ok (db_update_user (db_update_user db0 u) u, 0) := by
      rw [api_top_tracks_valid_run _ u now2 r2 _ _ hf1 hvalid2]
      simp [ingestion_pipeline, store_items]
    refine ⟨db_update_user db0 u, db_update_user (db_update_user db0 u) u,
      hrun1, hrun2, ?_, ?_, ?_⟩
    · rw [hutt2, huttU, hutts]
      rfl
    · rw [ht2, htU, htracks]
      rfl
    · intro k hk
      simp at hk
  · set dbU := db_update_user db0 u with hdbUdef
    set dbA := store_items u.id now1 dbU 0 items with hdbAdef
    set db1 := afs1.foldl apply_feature dbA with hdb1def
    have hnew : ∀ it ∈ items, find_track dbU it.id = none := by
      intro it _
      show dbU.tracks.find? _ = none
      rw [htU, htracks]
      rfl
    have hstoreA := store_items_fresh u.id now1 items dbU 0 hnew hnd
    rw [← hdbAdef] at hstoreA
    have htA : dbA.tracks = fresh_tracks db0.next_track_id items := by
      rw [hstoreA]
      show dbU.tracks ++ fresh_tracks dbU.next_track_id items = _
      rw [htU, htracks, hnU]
      exact List.nil_append _
    have huttA : dbA.user_top_tracks =
        fresh_entries u.id now1 db0.next_track_id 0 items := by
      rw [hstoreA]
      show dbU.user_top_tracks ++ fresh_entries u.id now1 dbU.next_track_id 0 items = _
      rw [huttU, hutts, hnU]
      exact List.nil_append _
    have huA : dbA.users = [u] := by
      rw [hstoreA]
      exact huU
    have hrun1 : api_top_tracks db0 u.spotify_user_id now1 r1 (.ok items) (.ok afs1) =
        .ok (db1, items.length) := by
      rw [api_top_tracks_valid_run db0 u now1 r1 _ _ hf0 hvalid1,
        ingestion_pipeline_ok _ _ _ _ _ hne]
    obtain ⟨hu1, hutt1, hn1, hm1, hkey1⟩ := foldl_apply_feature_frame afs1 dbA
    have hu1' : db1.users = [u] := hu1.trans huA
    have hutt1' : db1.user_top_tracks =
        fresh_entries u.id now1 db0.next_track_id 0 items := hutt1.trans huttA
    have hkey1' : db1.tracks.map erase_features =
        (fresh_tracks db0.next_track_id items).map erase_features := by
      rw [hkey1, htA]
    have hf1 : find_user db1 u.spotify_user_id = some u := find_user_single db1 u hu1'
    obtain ⟨huU2, htU2, huttU2, hnU2, hmU2⟩ := db_update_user_self db1 u hu1'
    set dbU2 := db_update_user db1 u with hdbU2def
    set dbB := store_items u.id now2 dbU2 0 items with hdbBdef
    set db2 := afs2.foldl apply_feature dbB with hdb2def
    have hfindk : ∀ k (hk : k < items.length),
        (find_track dbU2 (items.get ⟨k, hk⟩).id).map Track.id =
          some (db0.next_track_id + k) := by
      intro k hk
      have hkeyU2 : dbU2.tracks.map erase_features =
          (fresh_tracks db0.next_track_id items).map erase_features := by
        rw [htU2]
        exact hkey1'
      have h1 := find?_track_of_key_eq (items.get ⟨k, hk⟩).id dbU2.tracks
        (fresh_tracks db0.next_track_id items) hkeyU2
      rw [fresh_tracks_find items db0.next_track_id k hk hnd] at h1
      exact map_id_of_map_erase h1
    have hstoreB := store_items_found u.id now2 items dbU2 0 db0.next_track_id hfindk
    rw [← hdbBdef] at hstoreB
    have huttB : dbB.user_top_tracks =
        fresh_entries u.id now1 db0.next_track_id 0 items ++
          fresh_entries u.id now2 db0.next_track_id 0 items := by
      rw [hstoreB]
      show dbU2.user_top_tracks ++ _ = _
      rw [huttU2, hutt1']
    have hkeyB : dbB.tracks.map erase_features =
        (fresh_tracks db0.next_track_id items).map erase_features := by
      rw [hstoreB]
      show dbU2.tracks.map erase_features = _
      rw [htU2]
      exact hkey1'
    have hrun2 : api_top_tracks db1 u.spotify_user_id now2 r2 (.ok items) (.ok afs2) =
        .ok (db2, items.length) := by
      rw [api_top_tracks_valid_run db1 u now2 r2 _ _ hf1 hvalid2,
        ingestion_pipeline_ok _ _ _ _ _ hne]
    obtain ⟨hu2, hutt2, hn2, hm2, hkey2⟩ := foldl_apply_feature_frame afs2 dbB
    have hutt2' : db2.user_top_tracks =
        fresh_entries u.id now1 db0.next_track_id 0 items ++
          fresh_entries u.id now2 db0.next_track_id 0 items := hutt2.trans huttB
    have hkey2' : db2.tracks.map erase_features =
        (fresh_tracks db0.next_track_id items).map erase_features := hkey2.trans hkeyB
    refine ⟨db1, db2, hrun1, hrun2, hutt2', hkey2', ?_⟩
    intro k hk
    refine ⟨?_, ?_, ?_⟩
    · rw [filter_track_length_of_key_eq (items.get ⟨k, hk⟩).id db2.tracks
        (fresh_tracks db0.next_track_id items) hkey2']
      exact fresh_tracks_count items db0.next_track_id k hk hnd
    · rw [hutt2', List.filter_append, List.length_append,
        fresh_entries_count u.id now1 items db0.next_track_id 0 k hk,
        fresh_entries_count u.id now2 items db0.next_track_id 0 k hk]
    · have h1 := find?_track_of_key_eq (items.get ⟨k, hk⟩).id db2.tracks
        (fresh_tracks db0.next_track_id items) hkey2'
      rw [fresh_tracks_find items db0.next_track_id k hk hnd] at h1
      exact h1

/-- C6 witness: a two-item fetch for a stored user with a valid token, run
twice (first run's feature fetch returns one record and one null; second
returns an empty list). -/
theorem ingestion_twice_witness :
    (List.map Item.id [⟨"t1", "Song", ["A"], "Al"⟩, ⟨"t2", "Tune", ["B"], "Bl"⟩]).Nodup ∧
    token_invalid 100 ⟨1, "u1", none, some "tok", some "rt", some 100000⟩ = false ∧
    ∃ db1 db2 : DB,
      api_top_tracks ⟨[⟨1, "u1", none, some "tok", some "rt", some 100000⟩], [], [], 0, 2⟩
          "u1" 100 (.error ())
          (.ok [⟨"t1", "Song", ["A"], "Al"⟩, ⟨"t2", "Tune", ["B"], "Bl"⟩])
          (.ok [some ⟨"t1", "f1"⟩, none]) = .ok (db1, 2) ∧
      api_top_tracks db1 "u1" 200 (.error ())
          (.ok [⟨"t1", "Song", ["A"], "Al"⟩, ⟨"t2", "Tune", ["B"], "Bl"⟩])
          (.ok []) = .ok (db2, 2) := by
  obtain ⟨db1, db2, h1, h2, _, _, _⟩ :=
    ingestion_twice ⟨1, "u1", none, some "tok", some "rt", some 100000⟩
      [⟨"t1", "Song", ["A"], "Al"⟩, ⟨"t2", "Tune", ["B"], "Bl"⟩]
      ⟨[⟨1, "u1", none, some "tok", some "rt", some 100000⟩], [], [], 0, 2⟩
      100 200 (.error ()) (.error ()) [some ⟨"t1", "f1"⟩, none] []
      rfl rfl rfl (by decide) (by decide) (by decide)
  exact ⟨by decide, by decide, db1, db2, h1, h2⟩

end MoodySpotify
